import Mathlib

/-!
Shallow embedding of the request lifecycle engine of `src/index.js` (the
`got` HTTP layer): `requestAsEventEmitter`'s inner `get` loop, the buffered
adapter `asPromise`'s response handler, the streaming adapter `asStream`,
the default retry policy installed by `normalizeArguments`, and the
argument-normalization failure paths of `got`.

The network is modelled as a list of per-attempt outcomes (one outcome per
physical transport call): either a transport-level error or a response
carrying a status code and an optional `location` header.  The engine is a
pure function producing the list of emitted lifecycle events; asynchronous
scheduling is abstracted into the order of the trace (the `setImmediate`
deferrals in the source guarantee the `request` event of an attempt is
observed before that attempt's response handling, which the trace order
reflects).  URL resolution (`urlLib.resolve`) and the protocol of a parsed
URL (`urlLib.parse(u).protocol`) are external collaborators and enter as
function parameters `resolveUrl` and `parseProtocol`.
-/

namespace Got

/-- A transport-level error (connection refused, reset, DNS failure...).
`retryable` models the external `is-retry-allowed` classification used by
the default retry policy. -/
structure TransportError where
  code : String
  retryable : Bool
  deriving DecidableEq, Repr

/-- The closed error taxonomy of `src/index.js` (lines 359-385), restricted
to the data the engine and adapters put into each error. -/
inductive GotError where
  | UnsupportedProtocolError (protocol : String)
  | MaxRedirectsError (statusCode : Nat)
  | RequestError (err : TransportError)
  | HTTPError (statusCode : Nat)
  | ReadError
  | ParseError (statusCode : Nat)
  deriving DecidableEq, Repr

/-- A lifecycle event emitted by the engine, tagged with the index of the
physical attempt that emitted it.  `response` carries the `url` and
`requestUrl` fields the engine attaches (src/index.js lines 42-43). -/
inductive Event where
  | request (attempt : Nat)
  | redirect (attempt : Nat) (statusCode : Nat) (redirectTo : String)
  | response (attempt : Nat) (statusCode : Nat) (url : String) (requestUrl : String)
  | error (attempt : Nat) (e : GotError)
  deriving DecidableEq, Repr

/-- The network's answer to one physical transport call. -/
inductive Outcome where
  | transportError (err : TransportError)
  | response (statusCode : Nat) (location : Option String)
  deriving DecidableEq, Repr

/-- Engine-internal mutable state of `requestAsEventEmitter`
(src/index.js lines 27-29): the closure variables `redirectCount`,
`retryCount` and `redirectUrl`. -/
structure EngineState where
  redirectCount : Nat
  retryCount : Nat
  redirectUrl : Option String
  deriving DecidableEq, Repr

/-- The request descriptor fields the engine and adapters read
(a projection of the normalized options object).  `url` stands for the
formatted URL of the descriptor (`urlLib.format(opts)` resolved with the
path, i.e. the string the engine uses both as `requestUrl` and as the base
for redirect resolution).  `retries` is the retry policy: a backoff delay
in milliseconds, `0` being the stop sentinel (JavaScript falsiness of the
`backoff` value at src/index.js line 75). -/
structure Opts where
  protocol : String
  method : String
  followRedirect : Bool
  retries : Nat → TransportError → ℚ
  json : Bool
  url : String

/-- `is-redirect`: status codes treated as redirect class
(300, 301, 302, 303, 305, 307, 308 -- not 304, not 306). -/
def isRedirectCode (c : Nat) : Bool :=
  c == 300 || c == 301 || c == 302 || c == 303 || c == 305 || c == 307 || c == 308

/-- The result of running the engine against a finite list of attempt
outcomes: either a terminal state was reached (`done`) or the outcome list
was exhausted with an attempt still in flight (`pending`).  Both carry the
events emitted so far, in emission order. -/
inductive RunResult where
  | done (events : List Event)
  | pending (events : List Event)
  deriving DecidableEq, Repr

/-- Prefix earlier-emitted events onto a run result. -/
def RunResult.prepend (pre : List Event) : RunResult → RunResult
  | .done evs => .done (pre ++ evs)
  | .pending evs => .pending (pre ++ evs)

/-- The engine's `get` closure (src/index.js lines 31-90), one equation per
shape of the remaining network outcomes.  Per attempt: an unsupported
protocol emits a terminal `error` with no transport call (lines 32-35);
otherwise the transport call consumes the next outcome.  A transport error
consults the retry policy with the incremented retry count (line 73) and
either re-enters with the same descriptor or ends with a `RequestError`
(lines 72-81).  A redirect-class response with `followRedirect`, a
`location` header and a GET/HEAD method either overflows the redirect
budget (`MaxRedirectsError`, lines 48-51) or re-enters with the descriptor
rewritten to the resolved location (lines 53-62).  Any other response ends
with the terminal `response` event carrying `url` (last redirect target,
else the original URL) and `requestUrl` (lines 42-43, 65-69). -/
def runGet (resolveUrl : String → String → String) (parseProtocol : String → String)
    (requestUrl : String) : Opts → EngineState → Nat → List Outcome → RunResult
  | opts, _, a, [] =>
    if opts.protocol ≠ "http:" ∧ opts.protocol ≠ "https:" then
      .done [.error a (.UnsupportedProtocolError opts.protocol)]
    else
      .pending [.request a]
  | opts, st, a, o :: rest =>
    if opts.protocol ≠ "http:" ∧ opts.protocol ≠ "https:" then
      .done [.error a (.UnsupportedProtocolError opts.protocol)]
    else
      match o with
      | .transportError err =>
        if opts.retries (st.retryCount + 1) err ≠ 0 then
          RunResult.prepend [.request a]
            (runGet resolveUrl parseProtocol requestUrl opts
              { st with retryCount := st.retryCount + 1 } (a + 1) rest)
        else
          .done [.request a, .error a (.RequestError err)]
      | .response code loc =>
        match loc with
        | some l =>
          if isRedirectCode code && opts.followRedirect &&
              (opts.method == "GET" || opts.method == "HEAD") then
            if st.redirectCount + 1 > 10 then
              .done [.request a, .error a (.MaxRedirectsError code)]
            else
              let newUrl := resolveUrl opts.url l
              let newOpts := { opts with url := newUrl, protocol := parseProtocol newUrl }
              RunResult.prepend [.request a, .redirect a code newUrl]
                (runGet resolveUrl parseProtocol requestUrl newOpts
                  { st with redirectCount := st.redirectCount + 1, redirectUrl := some newUrl }
                  (a + 1) rest)
          else
            .done [.request a, .response a code (st.redirectUrl.getD requestUrl) requestUrl]
        | none =>
          .done [.request a, .response a code (st.redirectUrl.getD requestUrl) requestUrl]

/-- `requestAsEventEmitter` (src/index.js lines 22-94): computes
`requestUrl` from the descriptor, zeroes the counters and starts the first
attempt. -/
def requestAsEventEmitter (resolveUrl : String → String → String)
    (parseProtocol : String → String) (opts : Opts) (outcomes : List Outcome) : RunResult :=
  runGet resolveUrl parseProtocol opts.url opts ⟨0, 0, none⟩ 0 outcomes

/-- Result of draining the response body in buffered mode
(`getStream` at src/index.js line 111). -/
inductive ReadOutcome where
  | ok (data : String)
  | fail
  deriving DecidableEq, Repr

/-- The settlement of the buffered adapter's promise on the `response`
path.  `responseAttached` records whether the rejection went through the
final catch that attaches the response envelope to the error
(src/index.js lines 135-138). -/
inductive BufferedOutcome where
  | resolved (statusCode : Nat)
  | rejected (e : GotError) (responseAttached : Bool)
  deriving DecidableEq, Repr

/-- The `response` handler of `asPromise` (src/index.js lines 110-139):
drain the body (a draining failure rejects with `ReadError` through the
early catch, before the response-attaching catch); if `json` is set and
the body is truthy, parse it (`parseOk` models whether `JSON.parse`
succeeds on the data), a parse failure rejecting with `ParseError`; then
validate the status code against 304 and the redirect-dependent upper
bound and either reject with `HTTPError` or resolve.  Rejections thrown
inside the promise chain pass the catch that attaches the response. -/
def handleResponse (parseOk : String → Bool) (opts : Opts) (statusCode : Nat)
    (read : ReadOutcome) : BufferedOutcome :=
  match read with
  | .fail => .rejected .ReadError false
  | .ok data =>
    let limitStatusCode := if opts.followRedirect then 299 else 399
    if opts.json && !data.isEmpty && !parseOk data then
      .rejected (.ParseError statusCode) true
    else if statusCode ≠ 304 ∧ (statusCode < 200 ∨ statusCode > limitStatusCode) then
      .rejected (.HTTPError statusCode) true
    else
      .resolved statusCode

/-- The streaming adapter's translation of engine events into events on
the duplex proxy (src/index.js lines 162-197): a `response` whose status
fails the `[200,299] ∪ \x7b304\x7d` check is re-emitted as an `error`
carrying an `HTTPError` (lines 183-194); `request`, `redirect` and
`error` are re-emitted verbatim (lines 162-163, 196-197). -/
def proxyEvents : List Event → List Event
  | [] => []
  | .response a c url rurl :: rest =>
    if c ≠ 304 ∧ (c < 200 ∨ c > 299) then
      .error a (.HTTPError c) :: proxyEvents rest
    else
      .response a c url rurl :: proxyEvents rest
  | e :: rest => e :: proxyEvents rest

/-- What `asStream` does, observably: throw synchronously, or return a
duplex whose event stream is the translated engine trace. -/
inductive StreamResult where
  | thrownJson
  | thrownError (e : GotError)
  | duplex (events : List Event)

/-- `asStream` (src/index.js lines 145-200).  The `json` check throws
synchronously before the engine is created (lines 150-152).  The engine's
first attempt runs synchronously inside `requestAsEventEmitter` (line 92),
before any listener is attached (lines 162-197); an unsupported protocol
therefore emits `error` on a listener-less EventEmitter, which Node
re-throws synchronously out of `asStream` -- modelled as `thrownError`.
Otherwise every later engine event has listeners and is forwarded to the
duplex through `proxyEvents`. -/
def asStream (resolveUrl : String → String → String) (parseProtocol : String → String)
    (opts : Opts) (outcomes : List Outcome) : StreamResult :=
  if opts.json then
    .thrownJson
  else if opts.protocol ≠ "http:" ∧ opts.protocol ≠ "https:" then
    .thrownError (.UnsupportedProtocolError opts.protocol)
  else
    match requestAsEventEmitter resolveUrl parseProtocol opts outcomes with
    | .done evs => .duplex (proxyEvents evs)
    | .pending evs => .duplex (proxyEvents evs)

/-- JavaScript `1 << iter`: the shift count is taken mod 32 and the result
is a signed 32-bit integer. -/
def jsShl1 (iter : Nat) : Int :=
  if iter % 32 = 31 then -(2 ^ 31) else 2 ^ (iter % 32)

/-- The default retry policy `normalizeArguments` installs when
`opts.retries` is not a function (src/index.js lines 290-302): stop (`0`)
when the attempt number exceeds the configured count or the error is not
retryable, else `((1 << iter) * 1000) + Math.random() * 100`.  `random`
supplies the `Math.random()` draw for each attempt number. -/
def defaultRetryPolicy (retries : Nat) (random : Nat → ℚ) (iter : Nat)
    (err : TransportError) : ℚ :=
  if iter > retries ∨ err.retryable = false then 0
  else ((jsShl1 iter : ℚ)) * 1000 + random iter * 100

/-- The body value of the options, abstracted to the type tests
`normalizeArguments` performs on it (stream / string / Buffer /
plain object / anything else). -/
inductive Body where
  | str (s : String)
  | buffer
  | stream
  | plainObj
  | otherVal
  deriving DecidableEq, Repr

def Body.isStreamB : Body → Bool
  | .stream => true
  | _ => false

def Body.isStringB : Body → Bool
  | .str _ => true
  | _ => false

def Body.isBufferB : Body → Bool
  | .buffer => true
  | _ => false

def Body.isPlainObjB : Body → Bool
  | .plainObj => true
  | _ => false

/-- A URL value after parsing: the fields `normalizeArguments` reads.
For a string input this is the result of `urlParseLax`. -/
structure UrlObj where
  protocol : Option String
  auth : Bool
  href : String
  deriving DecidableEq, Repr

/-- The `url` argument of `got`, by the `typeof` classification at
src/index.js line 203: a string (carried parsed), an object, or anything
else (`typeName` is the `typeof` result). -/
inductive UrlInput where
  | str (u : UrlObj)
  | obj (u : UrlObj)
  | other (typeName : String)
  deriving DecidableEq, Repr

/-- The user-supplied `retries` option: a number or a policy function. -/
inductive RetriesIn where
  | num (n : Nat)
  | func (f : Nat → TransportError → ℚ)

/-- The user-supplied options fields `normalizeArguments` branches on. -/
structure OptsIn where
  protocol : Option String := none
  method : Option String := none
  body : Option Body := none
  form : Bool := false
  json : Bool := false
  followRedirect : Option Bool := none
  retries : Option RetriesIn := none

/-- The errors `normalizeArguments` throws. -/
inductive NormError where
  | urlType (typeName : String)
  | basicAuth
  | bodyType
  | bodyNotPlainObject
  deriving DecidableEq, Repr

/-- `normalizeArguments` (src/index.js lines 202-314), restricted to the
checks, defaults and fields the engine and the claims read (header,
query-string, form/json body re-encoding, content-length and unix-socket
handling are not referenced by any theorem and are omitted): the `url`
type check (line 203), the basic-auth check for string urls (line 211),
the protocol default `http:` (line 223), the body type checks
(lines 248-257), the method defaults GET/POST (lines 275-277), the default
retry policy for a non-function `retries` with default count 2
(lines 219, 290-302) and the `followRedirect` default (lines 304-306).
`normalizeOpts` is the part after the url checks (lines 216-314);
`normalizeArguments` performs the url type and auth checks
(lines 203-214) and dispatches to it. -/
def normalizeOpts (random : Nat → ℚ) (u : UrlObj) (o : OptsIn) : Except NormError Opts :=
  let protocol := o.protocol.getD (u.protocol.getD "http:")
  let retriesFn := match o.retries with
    | some (.func f) => f
    | some (.num n) => defaultRetryPolicy n random
    | none => defaultRetryPolicy 2 random
  match o.body with
  | some b =>
    if !b.isStreamB && !b.isStringB && !b.isBufferB && !(o.form || o.json) then
      .error .bodyType
    else if (o.form || o.json) && !b.isPlainObjB then
      .error .bodyNotPlainObject
    else
      .ok { protocol := protocol, method := (o.method.getD "POST").toUpper,
            followRedirect := o.followRedirect.getD true,
            retries := retriesFn, json := o.json, url := u.href }
  | none =>
    .ok { protocol := protocol, method := (o.method.getD "GET").toUpper,
          followRedirect := o.followRedirect.getD true,
          retries := retriesFn, json := o.json, url := u.href }

def normalizeArguments (random : Nat → ℚ) (url : UrlInput) (o : OptsIn) :
    Except NormError Opts :=
  match url with
  | .other t => .error (.urlType t)
  | .str uo =>
    if uo.auth then .error .basicAuth else normalizeOpts random uo o
  | .obj uo => normalizeOpts random uo o

/-- Supported protocol schemes (src/index.js line 32). -/
def supportedProtocol (p : String) : Prop :=
  p = "http:" ∨ p = "https:"

instance (p : String) : Decidable (supportedProtocol p) := by
  unfold supportedProtocol
  infer_instance

/-- Unsupported scheme: terminal `UnsupportedProtocolError`, no transport
call (the outcome list is untouched). -/
theorem runGet_unsupported (resolveUrl : String → String → String)
    (parseProtocol : String → String) (requestUrl : String) (opts : Opts)
    (st : EngineState) (a : Nat) (outcomes : List Outcome)
    (hp : ¬ supportedProtocol opts.protocol) :
    runGet resolveUrl parseProtocol requestUrl opts st a outcomes =
      .done [.error a (.UnsupportedProtocolError opts.protocol)] := by
  have hp2 : opts.protocol ≠ "http:" ∧ opts.protocol ≠ "https:" := by
    unfold supportedProtocol at hp
    tauto
  cases outcomes with
  | nil => simp only [runGet, if_pos hp2]
  | cons o rest => simp only [runGet, if_pos hp2]

/-- Supported scheme, outcomes exhausted: the attempt is in flight and only
its `request` event has been emitted. -/
theorem runGet_nil (resolveUrl : String → String → String)
    (parseProtocol : String → String) (requestUrl : String) (opts : Opts)
    (st : EngineState) (a : Nat) (hp : supportedProtocol opts.protocol) :
    runGet resolveUrl parseProtocol requestUrl opts st a [] = .pending [.request a] := by
  have hp2 : ¬ (opts.protocol ≠ "http:" ∧ opts.protocol ≠ "https:") := by
    unfold supportedProtocol at hp
    tauto
  simp only [runGet, if_neg hp2]

/-- Transport error with a truthy backoff: retry with the same descriptor
and an incremented retry count. -/
theorem runGet_transport_retry (resolveUrl : String → String → String)
    (parseProtocol : String → String) (requestUrl : String) (opts : Opts)
    (st : EngineState) (a : Nat) (err : TransportError) (rest : List Outcome)
    (hp : supportedProtocol opts.protocol)
    (hb : opts.retries (st.retryCount + 1) err ≠ 0) :
    runGet resolveUrl parseProtocol requestUrl opts st a (.transportError err :: rest) =
      RunResult.prepend [.request a]
        (runGet resolveUrl parseProtocol requestUrl opts
          { st with retryCount := st.retryCount + 1 } (a + 1) rest) := by
  have hp2 : ¬ (opts.protocol ≠ "http:" ∧ opts.protocol ≠ "https:") := by
    unfold supportedProtocol at hp
    tauto
  simp only [runGet, if_neg hp2, if_pos hb]

/-- Transport error with the stop sentinel: terminal `RequestError`
wrapping the cause. -/
theorem runGet_transport_stop (resolveUrl : String → String → String)
    (parseProtocol : String → String) (requestUrl : String) (opts : Opts)
    (st : EngineState) (a : Nat) (err : TransportError) (rest : List Outcome)
    (hp : supportedProtocol opts.protocol)
    (hb : opts.retries (st.retryCount + 1) err = 0) :
    runGet resolveUrl parseProtocol requestUrl opts st a (.transportError err :: rest) =
      .done [.request a, .error a (.RequestError err)] := by
  have hp2 : ¬ (opts.protocol ≠ "http:" ∧ opts.protocol ≠ "https:") := by
    unfold supportedProtocol at hp
    tauto
  have hb2 : ¬ (opts.retries (st.retryCount + 1) err ≠ 0) := by
    exact fun h => h hb
  simp only [runGet, if_neg hp2, if_neg hb2]

/-- The conjunction guarding a redirect (src/index.js line 45), for a
response that does carry a `location` header. -/
def followsRedirect (opts : Opts) (code : Nat) : Bool :=
  isRedirectCode code && opts.followRedirect && (opts.method == "GET" || opts.method == "HEAD")

/-- Redirect taken, budget available: emit `redirect` and re-enter with the
descriptor rewritten to the resolved location. -/
theorem runGet_redirect (resolveUrl : String → String → String)
    (parseProtocol : String → String) (requestUrl : String) (opts : Opts)
    (st : EngineState) (a : Nat) (code : Nat) (l : String) (rest : List Outcome)
    (hp : supportedProtocol opts.protocol)
    (hc : followsRedirect opts code = true)
    (hn : st.redirectCount + 1 ≤ 10) :
    runGet resolveUrl parseProtocol requestUrl opts st a (.response code (some l) :: rest) =
      RunResult.prepend
        [.request a, .redirect a code (resolveUrl opts.url l)]
        (runGet resolveUrl parseProtocol requestUrl
          { opts with url := resolveUrl opts.url l,
                      protocol := parseProtocol (resolveUrl opts.url l) }
          { st with redirectCount := st.redirectCount + 1,
                    redirectUrl := some (resolveUrl opts.url l) }
          (a + 1) rest) := by
  have hp2 : ¬ (opts.protocol ≠ "http:" ∧ opts.protocol ≠ "https:") := by
    unfold supportedProtocol at hp
    tauto
  have hn2 : ¬ (st.redirectCount + 1 > 10) := by omega
  unfold followsRedirect at hc
  simp only [runGet, if_neg hp2, hc, if_true, if_neg hn2]

/-- Redirect taken, budget exhausted: terminal `MaxRedirectsError` carrying
the status code, no further attempt. -/
theorem runGet_redirect_max (resolveUrl : String → String → String)
    (parseProtocol : String → String) (requestUrl : String) (opts : Opts)
    (st : EngineState) (a : Nat) (code : Nat) (l : String) (rest : List Outcome)
    (hp : supportedProtocol opts.protocol)
    (hc : followsRedirect opts code = true)
    (hn : st.redirectCount + 1 > 10) :
    runGet resolveUrl parseProtocol requestUrl opts st a (.response code (some l) :: rest) =
      .done [.request a, .error a (.MaxRedirectsError code)] := by
  have hp2 : ¬ (opts.protocol ≠ "http:" ∧ opts.protocol ≠ "https:") := by
    unfold supportedProtocol at hp
    tauto
  unfold followsRedirect at hc
  simp only [runGet, if_neg hp2, hc, if_true, if_pos hn]

/-- Response with a `location` header but failing the redirect guard:
terminal `response` event. -/
theorem runGet_response_some (resolveUrl : String → String → String)
    (parseProtocol : String → String) (requestUrl : String) (opts : Opts)
    (st : EngineState) (a : Nat) (code : Nat) (l : String) (rest : List Outcome)
    (hp : supportedProtocol opts.protocol)
    (hc : followsRedirect opts code = false) :
    runGet resolveUrl parseProtocol requestUrl opts st a (.response code (some l) :: rest) =
      .done [.request a, .response a code (st.redirectUrl.getD requestUrl) requestUrl] := by
  have hp2 : ¬ (opts.protocol ≠ "http:" ∧ opts.protocol ≠ "https:") := by
    unfold supportedProtocol at hp
    tauto
  unfold followsRedirect at hc
  simp only [runGet, if_neg hp2, hc, if_neg Bool.false_ne_true]

/-- Response without a `location` header: terminal `response` event,
whatever the status code. -/
theorem runGet_response_none (resolveUrl : String → String → String)
    (parseProtocol : String → String) (requestUrl : String) (opts : Opts)
    (st : EngineState) (a : Nat) (code : Nat) (rest : List Outcome)
    (hp : supportedProtocol opts.protocol) :
    runGet resolveUrl parseProtocol requestUrl opts st a (.response code none :: rest) =
      .done [.request a, .response a code (st.redirectUrl.getD requestUrl) requestUrl] := by
  have hp2 : ¬ (opts.protocol ≠ "http:" ∧ opts.protocol ≠ "https:") := by
    unfold supportedProtocol at hp
    tauto
  simp only [runGet, if_neg hp2]

/-- What `got(url, opts)` returns: always a promise, either already
rejected with the normalization error caught by the try/catch
(src/index.js lines 316-322) or the pending promise of `asPromise`. -/
inductive GotReturn where
  | rejectedPromise (e : NormError)
  | enginePromise (o : Opts)

/-- `got` (src/index.js lines 316-322): normalize, catch any throw into a
rejected promise, otherwise hand the descriptor to `asPromise`. -/
def got (random : Nat → ℚ) (url : UrlInput) (o : OptsIn) : GotReturn :=
  match normalizeArguments random url o with
  | .error e => .rejectedPromise e
  | .ok o2 => .enginePromise o2

/-- Terminal events: a `response` or an `error` settles the logical
request; `request` and `redirect` are internal transitions. -/
def isTerminalEv : Event → Bool
  | .response _ _ _ _ => true
  | .error _ _ => true
  | _ => false

/-- The events emitted by a run, terminal or not. -/
def RunResult.events : RunResult → List Event
  | .done evs => evs
  | .pending evs => evs

/-- Whether the run reached a terminal state. -/
def RunResult.isDone : RunResult → Bool
  | .done _ => true
  | .pending _ => false

theorem RunResult.events_prepend (pre : List Event) (r : RunResult) :
    (RunResult.prepend pre r).events = pre ++ r.events := by
  cases r <;> rfl

theorem RunResult.isDone_prepend (pre : List Event) (r : RunResult) :
    (RunResult.prepend pre r).isDone = r.isDone := by
  cases r <;> rfl

/-- Terminal-event count of any engine run: one if the run reached a
terminal state, zero while an attempt is still in flight. -/
theorem runGet_terminal_count (resolveUrl : String → String → String)
    (parseProtocol : String → String) (requestUrl : String) :
    ∀ (outcomes : List Outcome) (opts : Opts) (st : EngineState) (a : Nat),
      (runGet resolveUrl parseProtocol requestUrl opts st a outcomes).events.countP isTerminalEv =
        if (runGet resolveUrl parseProtocol requestUrl opts st a outcomes).isDone then 1 else 0 := by
  intro outcomes
  induction outcomes with
  | nil =>
    intro opts st a
    by_cases hp : supportedProtocol opts.protocol
    · rw [runGet_nil resolveUrl parseProtocol requestUrl opts st a hp]
      rfl
    · rw [runGet_unsupported resolveUrl parseProtocol requestUrl opts st a [] hp]
      rfl
  | cons o rest ih =>
    intro opts st a
    by_cases hp : supportedProtocol opts.protocol
    · cases o with
      | transportError err =>
        by_cases hb : opts.retries (st.retryCount + 1) err ≠ 0
        · rw [runGet_transport_retry resolveUrl parseProtocol requestUrl opts st a err rest hp hb]
          rw [RunResult.events_prepend, RunResult.isDone_prepend, List.countP_append]
          rw [ih opts { st with retryCount := st.retryCount + 1 } (a + 1)]
          rw [show List.countP isTerminalEv [Event.request a] = 0 from rfl, Nat.zero_add]
        · rw [runGet_transport_stop resolveUrl parseProtocol requestUrl opts st a err rest hp
            (by push_neg at hb; exact hb)]
          rfl
      | response code loc =>
        cases loc with
        | none =>
          rw [runGet_response_none resolveUrl parseProtocol requestUrl opts st a code rest hp]
          rfl
        | some l =>
          by_cases hc : followsRedirect opts code = true
          · by_cases hn : st.redirectCount + 1 ≤ 10
            · rw [runGet_redirect resolveUrl parseProtocol requestUrl opts st a code l rest hp hc hn]
              rw [RunResult.events_prepend, RunResult.isDone_prepend, List.countP_append]
              rw [ih]
              rw [show List.countP isTerminalEv
                [Event.request a, Event.redirect a code (resolveUrl opts.url l)] = 0 from rfl,
                Nat.zero_add]
            · rw [runGet_redirect_max resolveUrl parseProtocol requestUrl opts st a code l rest hp hc
                (by omega)]
              rfl
          · rw [runGet_response_some resolveUrl parseProtocol requestUrl opts st a code l rest hp
              (by revert hc; cases followsRedirect opts code <;> simp)]
            rfl
    · rw [runGet_unsupported resolveUrl parseProtocol requestUrl opts st a (o :: rest) hp]
      rfl

/-- C1: For every logical request, the engine publishes exactly one
terminal event -- a single `response` or a single `error` carrying a
taxonomy error -- and redirect and retry transitions are never terminal
and never produce a second terminal event: every completed run's trace
contains exactly one terminal event, and a still-pending run's trace
contains none. -/
theorem c1_exactly_one_terminal (resolveUrl : String → String → String)
    (parseProtocol : String → String) (opts : Opts) (outcomes : List Outcome)
    (evs : List Event) :
    (requestAsEventEmitter resolveUrl parseProtocol opts outcomes = .done evs →
      evs.countP isTerminalEv = 1) ∧
    (requestAsEventEmitter resolveUrl parseProtocol opts outcomes = .pending evs →
      evs.countP isTerminalEv = 0) := by
  have h := runGet_terminal_count resolveUrl parseProtocol opts.url outcomes opts ⟨0, 0, none⟩ 0
  unfold requestAsEventEmitter
  constructor
  · intro hd
    rw [hd] at h
    exact h
  · intro hd
    rw [hd] at h
    exact h

/-- C1 witness: a concrete one-attempt run ending in a single terminal
`response` event. -/
theorem c1_exactly_one_terminal_witness :
    [Event.request 0, Event.response 0 200 "http://a/" "http://a/"].countP isTerminalEv = 1 :=
  (c1_exactly_one_terminal (fun _ l => l) (fun _ => "http:")
    { protocol := "http:", method := "GET", followRedirect := true,
      retries := fun _ _ => 0, json := false, url := "http://a/" }
    [Outcome.response 200 none]
    [Event.request 0, Event.response 0 200 "http://a/" "http://a/"]).1
    (by rw [requestAsEventEmitter,
          runGet_response_none _ _ _ _ _ _ _ _ (Or.inl rfl)]
        rfl)

/-- With the body drained and JSON parsing not failing, the buffered
response handler reduces to the status-code validation. -/
theorem handleResponse_ok (parseOk : String → Bool) (opts : Opts) (code : Nat)
    (data : String)
    (hparse : opts.json = true → data.isEmpty = false → parseOk data = true) :
    handleResponse parseOk opts code (.ok data) =
      if code ≠ 304 ∧ (code < 200 ∨ code > (if opts.followRedirect then 299 else 399)) then
        .rejected (.HTTPError code) true
      else
        .resolved code := by
  have hpb : (opts.json && !data.isEmpty && !parseOk data) = false := by
    cases hj : opts.json with
    | false => simp
    | true =>
      cases hd : data.isEmpty with
      | true => simp [hd]
      | false => simp [hparse hj hd]
  simp only [handleResponse, hpb, Bool.false_eq_true, if_false]

/-- C2: In buffered mode, for every response whose body drains and (when
JSON decoding is on) parses: status 304 always resolves regardless of
redirect mode; codes in [200, 299] resolve when `followRedirect` is true
and codes in [200, 399] resolve when it is false; every other code rejects
with an `HTTPError` carrying that exact status code, with the
partially-built response envelope attached to the error. -/
theorem c2_status_validation (parseOk : String → Bool) (opts : Opts) (code : Nat)
    (data : String)
    (hparse : opts.json = true → data.isEmpty = false → parseOk data = true) :
    (code = 304 → handleResponse parseOk opts code (.ok data) = .resolved 304) ∧
    (opts.followRedirect = true → 200 ≤ code → code ≤ 299 →
      handleResponse parseOk opts code (.ok data) = .resolved code) ∧
    (opts.followRedirect = false → 200 ≤ code → code ≤ 399 →
      handleResponse parseOk opts code (.ok data) = .resolved code) ∧
    (code ≠ 304 → (code < 200 ∨ code > (if opts.followRedirect then 299 else 399)) →
      handleResponse parseOk opts code (.ok data) = .rejected (.HTTPError code) true) := by
  rw [handleResponse_ok parseOk opts code data hparse]
  refine ⟨?_, ?_, ?_, ?_⟩
  · intro h304
    subst h304
    rw [if_neg]
    omega
  · intro hfr h1 h2
    have hl : (if opts.followRedirect then (299 : Nat) else 399) = 299 := by
      rw [hfr]
      simp
    rw [hl, if_neg (by omega)]
  · intro hfr h1 h2
    have hl : (if opts.followRedirect then (299 : Nat) else 399) = 399 := by
      rw [hfr]
      simp
    rw [hl, if_neg (by omega)]
  · intro h304 hout
    rw [if_pos ⟨h304, hout⟩]

/-- C2 witness: a 404 with `followRedirect = true` rejects with
`HTTPError 404` and the response attached; a 304 resolves. -/
theorem c2_status_validation_witness :
    handleResponse (fun _ => true)
      { protocol := "http:", method := "GET", followRedirect := true,
        retries := fun _ _ => 0, json := false, url := "http://a/" }
      404 (.ok "nf") = .rejected (.HTTPError 404) true :=
  (c2_status_validation (fun _ => true)
    { protocol := "http:", method := "GET", followRedirect := true,
      retries := fun _ _ => 0, json := false, url := "http://a/" }
    404 "nf" (by intro h; cases h)).2.2.2
    (by omega) (by simp)

def isResponseEv : Event → Bool
  | .response _ _ _ _ => true
  | _ => false

def isErrorEv : Event → Bool
  | .error _ _ => true
  | _ => false

def isRequestEv : Event → Bool
  | .request _ => true
  | _ => false

/-- The successive absolute redirect targets obtained by resolving each
`location` value against the URL of the attempt that received it
(src/index.js line 55). -/
def chainUrls (resolveUrl : String → String → String) : String → List String → List String
  | _, [] => []
  | base, l :: ls => resolveUrl base l :: chainUrls resolveUrl (resolveUrl base l) ls

/-- Network outcomes for a redirect chain: one redirect response per
`(statusCode, location)` pair, then a final response with no `location`
header. -/
def redirectChain (locs : List (Nat × String)) (finalCode : Nat) : List Outcome :=
  locs.map (fun p => Outcome.response p.1 (some p.2)) ++ [Outcome.response finalCode none]

/-- A redirect chain within budget ends in exactly one `response` event
whose `url` is the last redirect target (the original URL if there was no
redirect) and whose `requestUrl` is the engine's original URL; no `error`
event is emitted. -/
theorem runGet_chain (resolveUrl : String → String → String)
    (parseProtocol : String → String) (requestUrl : String) :
    ∀ (locs : List (Nat × String)) (opts : Opts) (st : EngineState) (a finalCode : Nat),
      opts.followRedirect = true →
      (opts.method = "GET" ∨ opts.method = "HEAD") →
      supportedProtocol opts.protocol →
      (∀ p ∈ locs, isRedirectCode p.1 = true) →
      (∀ u ∈ chainUrls resolveUrl opts.url (locs.map Prod.snd),
        supportedProtocol (parseProtocol u)) →
      st.redirectCount + locs.length ≤ 10 →
      ∃ evs,
        runGet resolveUrl parseProtocol requestUrl opts st a (redirectChain locs finalCode) =
          .done evs ∧
        evs.filter isResponseEv =
          [.response (a + locs.length) finalCode
            ((chainUrls resolveUrl opts.url (locs.map Prod.snd)).getLastD
              (st.redirectUrl.getD requestUrl))
            requestUrl] ∧
        evs.filter isErrorEv = [] := by
  intro locs
  induction locs with
  | nil =>
    intro opts st a finalCode hfr hm hp hcodes hprotos hcount
    refine ⟨_, runGet_response_none resolveUrl parseProtocol requestUrl opts st a finalCode [] hp,
      ?_, ?_⟩ <;> simp [List.filter, isResponseEv, isErrorEv, chainUrls]
  | cons p ls ih =>
    obtain ⟨c, l⟩ := p
    intro opts st a finalCode hfr hm hp hcodes hprotos hcount
    have hc : followsRedirect opts c = true := by
      unfold followsRedirect
      rw [hcodes (c, l) (by simp), hfr]
      rcases hm with h | h <;> simp [h]
    have hn : st.redirectCount + 1 ≤ 10 := by
      simp only [List.length_cons] at hcount
      omega
    have hchain : chainUrls resolveUrl opts.url (((c, l) :: ls).map Prod.snd) =
        resolveUrl opts.url l ::
          chainUrls resolveUrl (resolveUrl opts.url l) (ls.map Prod.snd) := rfl
    obtain ⟨evs, heq, hresp, herr⟩ :=
      ih { opts with url := resolveUrl opts.url l,
                     protocol := parseProtocol (resolveUrl opts.url l) }
        { st with redirectCount := st.redirectCount + 1,
                  redirectUrl := some (resolveUrl opts.url l) }
        (a + 1) finalCode hfr hm
        (hprotos (resolveUrl opts.url l) (by rw [hchain]; exact List.mem_cons_self _ _))
        (fun q hq => hcodes q (List.mem_cons_of_mem _ hq))
        (fun u hu => hprotos u (by rw [hchain]; exact List.mem_cons_of_mem _ hu))
        (by show st.redirectCount + 1 + ls.length ≤ 10
            simp only [List.length_cons] at hcount
            omega)
    refine ⟨[Event.request a, Event.redirect a c (resolveUrl opts.url l)] ++ evs, ?_, ?_, ?_⟩
    · rw [show redirectChain ((c, l) :: ls) finalCode =
          .response c (some l) :: redirectChain ls finalCode from rfl]
      rw [runGet_redirect resolveUrl parseProtocol requestUrl opts st a c l _ hp hc hn, heq]
      rfl
    · rw [List.filter_append, hresp, hchain, List.getLastD_cons]
      simp only [List.length_cons]
      rw [show a + (ls.length + 1) = a + 1 + ls.length from by omega]
      rfl
    · rw [List.filter_append, herr]
      rfl

/-- C3: For every request descriptor with `followRedirect = true` and
method GET, a redirect chain of at most 10 redirects terminates in exactly
one `response` event whose `url` field equals the final redirect target
URL (the original URL when the chain is empty) and whose `requestUrl`
field equals the original request URL. -/
theorem c3_redirect_chain (resolveUrl : String → String → String)
    (parseProtocol : String → String) (opts : Opts) (locs : List (Nat × String))
    (finalCode : Nat)
    (hfr : opts.followRedirect = true)
    (hm : opts.method = "GET")
    (hp : supportedProtocol opts.protocol)
    (hcodes : ∀ p ∈ locs, isRedirectCode p.1 = true)
    (hprotos : ∀ u ∈ chainUrls resolveUrl opts.url (locs.map Prod.snd),
      supportedProtocol (parseProtocol u))
    (hcount : locs.length ≤ 10) :
    ∃ evs,
      requestAsEventEmitter resolveUrl parseProtocol opts (redirectChain locs finalCode) =
        .done evs ∧
      evs.filter isResponseEv =
        [.response locs.length finalCode
          ((chainUrls resolveUrl opts.url (locs.map Prod.snd)).getLastD opts.url)
          opts.url] ∧
      evs.filter isErrorEv = [] := by
  have h := runGet_chain resolveUrl parseProtocol opts.url locs opts ⟨0, 0, none⟩ 0 finalCode
    hfr (Or.inl hm) hp hcodes hprotos
    (by show 0 + locs.length ≤ 10; omega)
  simpa [requestAsEventEmitter] using h

/-- C3 witness: one 301 redirect from `http://a/` to `http://b/` then a
200 terminates in a single `response` whose `url` is `http://b/` and whose
`requestUrl` is `http://a/`. -/
theorem c3_redirect_chain_witness :
    ∃ evs,
      requestAsEventEmitter (fun _ l => l) (fun _ => "http:")
        { protocol := "http:", method := "GET", followRedirect := true,
          retries := fun _ _ => 0, json := false, url := "http://a/" }
        (redirectChain [(301, "http://b/")] 200) = .done evs ∧
      evs.filter isResponseEv = [.response 1 200 "http://b/" "http://a/"] ∧
      evs.filter isErrorEv = [] :=
  c3_redirect_chain (fun _ l => l) (fun _ => "http:")
    { protocol := "http:", method := "GET", followRedirect := true,
      retries := fun _ _ => 0, json := false, url := "http://a/" }
    [(301, "http://b/")] 200 rfl rfl (Or.inl rfl)
    (by intro p hp; simp at hp; rw [hp]; rfl)
    (by intro u hu; exact Or.inl rfl)
    (by simp)

/-- A chain of redirect responses whose length pushes the redirect count
past 10 ends in exactly one terminal `MaxRedirectsError` carrying the
status code of the overflowing redirect response, with no `response` event
and no attempt beyond the one that received it. -/
theorem runGet_chain_overflow (resolveUrl : String → String → String)
    (parseProtocol : String → String) (requestUrl : String) :
    ∀ (locs : List (Nat × String)) (cL : Nat) (lL : String) (opts : Opts)
      (st : EngineState) (a : Nat),
      opts.followRedirect = true →
      (opts.method = "GET" ∨ opts.method = "HEAD") →
      supportedProtocol opts.protocol →
      (∀ p ∈ locs, isRedirectCode p.1 = true) →
      (∀ u ∈ chainUrls resolveUrl opts.url (locs.map Prod.snd),
        supportedProtocol (parseProtocol u)) →
      st.redirectCount + locs.length = 11 →
      locs.getLast? = some (cL, lL) →
      ∃ evs,
        runGet resolveUrl parseProtocol requestUrl opts st a
          (locs.map (fun p => Outcome.response p.1 (some p.2))) = .done evs ∧
        evs.filter isResponseEv = [] ∧
        evs.filter isErrorEv = [.error (a + locs.length - 1) (.MaxRedirectsError cL)] ∧
        (evs.filter isRequestEv).length = locs.length := by
  intro locs
  induction locs with
  | nil =>
    intro cL lL opts st a hfr hm hp hcodes hprotos hcount hlast
    simp at hlast
  | cons p ls ih =>
    obtain ⟨c, l⟩ := p
    intro cL lL opts st a hfr hm hp hcodes hprotos hcount hlast
    have hc : followsRedirect opts c = true := by
      unfold followsRedirect
      rw [hcodes (c, l) (by simp), hfr]
      rcases hm with h | h <;> simp [h]
    have hchain : chainUrls resolveUrl opts.url (((c, l) :: ls).map Prod.snd) =
        resolveUrl opts.url l ::
          chainUrls resolveUrl (resolveUrl opts.url l) (ls.map Prod.snd) := rfl
    cases ls with
    | nil =>
      simp only [List.getLast?_singleton, Option.some.injEq, Prod.mk.injEq] at hlast
      obtain ⟨rfl, rfl⟩ := hlast
      have hn : st.redirectCount + 1 > 10 := by
        simp only [List.length_cons, List.length_nil] at hcount
        omega
      rw [show ([(c, l)].map (fun p => Outcome.response p.1 (some p.2))) =
          [Outcome.response c (some l)] from rfl]
      rw [runGet_redirect_max resolveUrl parseProtocol requestUrl opts st a c l [] hp hc hn]
      refine ⟨_, rfl, rfl, ?_, rfl⟩
      simp only [List.length_cons, List.length_nil]
      rfl
    | cons q ls2 =>
      have hn : st.redirectCount + 1 ≤ 10 := by
        simp only [List.length_cons] at hcount
        omega
      obtain ⟨evs, heq, hresp, herr, hreq⟩ :=
        ih cL lL
          { opts with url := resolveUrl opts.url l,
                      protocol := parseProtocol (resolveUrl opts.url l) }
          { st with redirectCount := st.redirectCount + 1,
                    redirectUrl := some (resolveUrl opts.url l) }
          (a + 1) hfr hm
          (hprotos (resolveUrl opts.url l) (by rw [hchain]; exact List.mem_cons_self _ _))
          (fun r hr => hcodes r (List.mem_cons_of_mem _ hr))
          (fun u hu => hprotos u (by rw [hchain]; exact List.mem_cons_of_mem _ hu))
          (by show st.redirectCount + 1 + (q :: ls2).length = 11
              simp only [List.length_cons] at hcount ⊢
              omega)
          (by rw [List.getLast?_cons_cons] at hlast; exact hlast)
      refine ⟨[Event.request a, Event.redirect a c (resolveUrl opts.url l)] ++ evs, ?_, ?_, ?_, ?_⟩
      · rw [show (((c, l) :: q :: ls2).map (fun p => Outcome.response p.1 (some p.2))) =
            Outcome.response c (some l) ::
              ((q :: ls2).map (fun p => Outcome.response p.1 (some p.2))) from rfl]
        rw [runGet_redirect resolveUrl parseProtocol requestUrl opts st a c l _ hp hc hn, heq]
        rfl
      · rw [List.filter_append, hresp]
        rfl
      · rw [List.filter_append, herr]
        simp only [List.length_cons]
        rw [show a + 1 + (ls2.length + 1) - 1 = a + (ls2.length + 1 + 1) - 1 from by omega]
        rfl
      · rw [List.filter_append, List.length_append, hreq]
        simp only [List.length_cons]
        rw [show (List.filter isRequestEv
          [Event.request a, Event.redirect a c (resolveUrl opts.url l)]).length = 1 from rfl]
        omega

/-- C4: When a redirect would be followed and the redirect count, once
incremented, exceeds 10 -- an 11-redirect chain -- the engine publishes
exactly one terminal `error` event carrying a `MaxRedirectsError` with the
status code of the overflowing redirect response, publishes no `response`
event, and starts no further attempt (exactly 11 `request` events are
emitted). -/
theorem c4_max_redirects (resolveUrl : String → String → String)
    (parseProtocol : String → String) (opts : Opts) (locs : List (Nat × String))
    (cL : Nat) (lL : String)
    (hfr : opts.followRedirect = true)
    (hm : opts.method = "GET" ∨ opts.method = "HEAD")
    (hp : supportedProtocol opts.protocol)
    (hcodes : ∀ p ∈ locs, isRedirectCode p.1 = true)
    (hprotos : ∀ u ∈ chainUrls resolveUrl opts.url (locs.map Prod.snd),
      supportedProtocol (parseProtocol u))
    (hlen : locs.length = 11)
    (hlast : locs.getLast? = some (cL, lL)) :
    ∃ evs,
      requestAsEventEmitter resolveUrl parseProtocol opts
        (locs.map (fun p => Outcome.response p.1 (some p.2))) = .done evs ∧
      evs.filter isResponseEv = [] ∧
      evs.filter isErrorEv = [.error 10 (.MaxRedirectsError cL)] ∧
      (evs.filter isRequestEv).length = 11 := by
  have h := runGet_chain_overflow resolveUrl parseProtocol opts.url locs cL lL opts
    ⟨0, 0, none⟩ 0 hfr hm hp hcodes hprotos
    (by show 0 + locs.length = 11; omega) hlast
  rw [hlen] at h
  simpa [requestAsEventEmitter] using h

/-- C4 witness: eleven 302 redirects produce exactly one
`MaxRedirectsError 302` at attempt 10, no `response`, and 11 `request`
events. -/
theorem c4_max_redirects_witness :
    ∃ evs,
      requestAsEventEmitter (fun _ l => l) (fun _ => "http:")
        { protocol := "http:", method := "GET", followRedirect := true,
          retries := fun _ _ => 0, json := false, url := "http://a/" }
        ((List.replicate 11 ((302 : Nat), "http://b/")).map
          (fun p => Outcome.response p.1 (some p.2))) = .done evs ∧
      evs.filter isResponseEv = [] ∧
      evs.filter isErrorEv = [.error 10 (.MaxRedirectsError 302)] ∧
      (evs.filter isRequestEv).length = 11 :=
  c4_max_redirects (fun _ l => l) (fun _ => "http:")
    { protocol := "http:", method := "GET", followRedirect := true,
      retries := fun _ _ => 0, json := false, url := "http://a/" }
    (List.replicate 11 (302, "http://b/")) 302 "http://b/"
    rfl (Or.inl rfl) (Or.inl rfl)
    (by intro p hp
        rw [List.eq_of_mem_replicate hp]
        rfl)
    (by intro u hu; exact Or.inl rfl)
    (by rfl)
    (by rfl)

/-- C5: The default retry policy returns the stop sentinel (`0`) when the
attempt number exceeds the configured retry count (default 2) or the
error is classified non-retryable, and otherwise -- at the default count
of 2 -- returns a delay of exactly `2 ^ attempt * 1000` milliseconds plus
a jitter drawn uniformly from `[0, 100)` milliseconds (`Math.random()`
modelled as `random`, constrained to `[0, 1)`). -/
theorem c5_default_retry_policy (random : Nat → ℚ)
    (h0 : ∀ i, 0 ≤ random i) (h1 : ∀ i, random i < 1)
    (iter : Nat) (err : TransportError) :
    (∀ retries : Nat, retries < iter ∨ err.retryable = false →
      defaultRetryPolicy retries random iter err = 0) ∧
    (iter ≤ 2 → err.retryable = true →
      defaultRetryPolicy 2 random iter err = 2 ^ iter * 1000 + random iter * 100 ∧
      0 ≤ random iter * 100 ∧ random iter * 100 < 100) := by
  constructor
  · intro retries hstop
    unfold defaultRetryPolicy
    rw [if_pos]
    rcases hstop with h | h
    · exact Or.inl h
    · exact Or.inr h
  · intro hlt hretry
    have hcond : ¬ (iter > 2 ∨ err.retryable = false) := by
      push_neg
      exact ⟨by omega, by rw [hretry]; exact fun h => by cases h⟩
    unfold defaultRetryPolicy
    rw [if_neg hcond]
    refine ⟨?_, ?_, ?_⟩
    · have hshl : (jsShl1 iter : ℚ) = 2 ^ iter := by
        interval_cases iter <;> norm_num [jsShl1]
      rw [hshl]
    · have := h0 iter
      positivity
    · have := h1 iter
      nlinarith [h1 iter, h0 iter]

/-- C5 witness: at the default count, attempt 1 on a retryable error backs
off by 2000 ms plus the jitter, and attempt 3 stops. -/
theorem c5_default_retry_policy_witness :
    defaultRetryPolicy 2 (fun _ => 1 / 2) 3 { code := "ECONNRESET", retryable := true } = 0 ∧
    defaultRetryPolicy 2 (fun _ => 1 / 2) 1 { code := "ECONNRESET", retryable := true } =
      2 ^ 1 * 1000 + (1 / 2 : ℚ) * 100 :=
  ⟨(c5_default_retry_policy (fun _ => 1 / 2) (fun _ => by norm_num) (fun _ => by norm_num)
      3 { code := "ECONNRESET", retryable := true }).1 2 (Or.inl (by omega)),
   ((c5_default_retry_policy (fun _ => 1 / 2) (fun _ => by norm_num) (fun _ => by norm_num)
      1 { code := "ECONNRESET", retryable := true }).2 (by omega) rfl).1⟩

/-- C6: On a transport-level error, the engine consults the retry policy
with `(retryCount + 1, error)`: a truthy (non-zero) backoff re-enters with
the same descriptor and the incremented retry count, and the stop sentinel
produces a terminal `error` event carrying a `RequestError` that wraps the
underlying cause. -/
theorem c6_transport_error_retry (resolveUrl : String → String → String)
    (parseProtocol : String → String) (requestUrl : String) (opts : Opts)
    (st : EngineState) (a : Nat) (err : TransportError) (rest : List Outcome)
    (hp : supportedProtocol opts.protocol) :
    (opts.retries (st.retryCount + 1) err ≠ 0 →
      runGet resolveUrl parseProtocol requestUrl opts st a (.transportError err :: rest) =
        RunResult.prepend [.request a]
          (runGet resolveUrl parseProtocol requestUrl opts
            { st with retryCount := st.retryCount + 1 } (a + 1) rest)) ∧
    (opts.retries (st.retryCount + 1) err = 0 →
      runGet resolveUrl parseProtocol requestUrl opts st a (.transportError err :: rest) =
        .done [.request a, .error a (.RequestError err)]) :=
  ⟨fun hb => runGet_transport_retry resolveUrl parseProtocol requestUrl opts st a err rest hp hb,
   fun hb => runGet_transport_stop resolveUrl parseProtocol requestUrl opts st a err rest hp hb⟩

/-- C6 witness: with a policy that stops immediately, a transport error on
attempt 0 ends in a terminal `RequestError` wrapping it. -/
theorem c6_transport_error_retry_witness :
    runGet (fun _ l => l) (fun _ => "http:") "http://a/"
      { protocol := "http:", method := "GET", followRedirect := true,
        retries := fun _ _ => 0, json := false, url := "http://a/" }
      ⟨0, 0, none⟩ 0 [.transportError { code := "ECONNREFUSED", retryable := true }] =
      .done [.request 0,
        .error 0 (.RequestError { code := "ECONNREFUSED", retryable := true })] :=
  (c6_transport_error_retry (fun _ l => l) (fun _ => "http:") "http://a/"
    { protocol := "http:", method := "GET", followRedirect := true,
      retries := fun _ _ => 0, json := false, url := "http://a/" }
    ⟨0, 0, none⟩ 0 { code := "ECONNREFUSED", retryable := true } []
    (Or.inl rfl)).2 rfl

/-- The streaming proxy re-emits every engine `error` event. -/
theorem error_mem_proxyEvents (a : Nat) (e : GotError) :
    ∀ evs : List Event, Event.error a e ∈ evs → Event.error a e ∈ proxyEvents evs := by
  intro evs
  induction evs with
  | nil => intro h; cases h
  | cons x rest ih =>
    intro h
    rcases List.mem_cons.mp h with heq | hmem
    · rw [← heq]
      exact List.mem_cons_self _ _
    · have hm := ih hmem
      cases x with
      | response b c u ru =>
        simp only [proxyEvents]
        split
        · exact List.mem_cons_of_mem _ hm
        · exact List.mem_cons_of_mem _ hm
      | request b => exact List.mem_cons_of_mem _ hm
      | redirect b c u => exact List.mem_cons_of_mem _ hm
      | error b e2 => exact List.mem_cons_of_mem _ hm

/-- C7 counterexample: in streaming mode, a descriptor whose protocol is
not http/https makes the first attempt emit `error` on the event emitter
before `asStream` has attached any listener, so the taxonomy error escapes
as a synchronous throw instead of being delivered as an `error` event on a
duplex. -/
theorem c7_stream_counterexample :
    asStream (fun _ l => l) (fun _ => "http:")
      { protocol := "ftp:", method := "GET", followRedirect := true,
        retries := fun _ _ => 0, json := false, url := "ftp://a/" } [] =
      .thrownError (.UnsupportedProtocolError "ftp:") := by
  rfl

/-- C7 (amended): for every descriptor whose protocol passes the
synchronous first-attempt check (http/https) and with JSON mode off,
streaming mode returns a duplex -- no synchronous or asynchronous throw --
whose event stream is the proxy translation of the engine trace, and every
engine failure (`error` event) of a completed run is delivered as an
`error` event on that duplex. -/
theorem c7_stream_failures_on_duplex (resolveUrl : String → String → String)
    (parseProtocol : String → String) (opts : Opts) (outcomes : List Outcome)
    (hjson : opts.json = false) (hp : supportedProtocol opts.protocol) :
    ∃ pevs, asStream resolveUrl parseProtocol opts outcomes = .duplex pevs ∧
      ∀ evs, requestAsEventEmitter resolveUrl parseProtocol opts outcomes = .done evs →
        pevs = proxyEvents evs ∧
        ∀ a e, Event.error a e ∈ evs → Event.error a e ∈ pevs := by
  have hsp : ¬ (opts.protocol ≠ "http:" ∧ opts.protocol ≠ "https:") := by
    unfold supportedProtocol at hp
    tauto
  cases hrun : requestAsEventEmitter resolveUrl parseProtocol opts outcomes with
  | done evs =>
    refine ⟨proxyEvents evs, ?_, ?_⟩
    · unfold asStream
      rw [hjson, if_neg Bool.false_ne_true, if_neg hsp, hrun]
    · intro evs2 h2
      injection h2 with h3
      subst h3
      exact ⟨rfl, fun a e he => error_mem_proxyEvents a e evs he⟩
  | pending evs =>
    refine ⟨proxyEvents evs, ?_, ?_⟩
    · unfold asStream
      rw [hjson, if_neg Bool.false_ne_true, if_neg hsp, hrun]
    · intro evs2 h2
      exact RunResult.noConfusion h2

/-- C7 witness: a supported-protocol descriptor whose single attempt fails
terminally yields a duplex carrying the `RequestError` as an event. -/
theorem c7_stream_failures_on_duplex_witness :
    ∃ pevs, asStream (fun _ l => l) (fun _ => "http:")
      { protocol := "http:", method := "GET", followRedirect := true,
        retries := fun _ _ => 0, json := false, url := "http://a/" }
      [.transportError { code := "ECONNREFUSED", retryable := true }] = .duplex pevs ∧
      ∀ evs, requestAsEventEmitter (fun _ l => l) (fun _ => "http:")
        { protocol := "http:", method := "GET", followRedirect := true,
          retries := fun _ _ => 0, json := false, url := "http://a/" }
        [.transportError { code := "ECONNREFUSED", retryable := true }] = .done evs →
        pevs = proxyEvents evs ∧
        ∀ a e, Event.error a e ∈ evs → Event.error a e ∈ pevs :=
  c7_stream_failures_on_duplex (fun _ l => l) (fun _ => "http:")
    { protocol := "http:", method := "GET", followRedirect := true,
      retries := fun _ _ => 0, json := false, url := "http://a/" }
    [.transportError { code := "ECONNREFUSED", retryable := true }]
    rfl (Or.inl rfl)

/-- C8: For every descriptor with JSON decoding requested, the streaming
entry point throws synchronously -- for every possible network behavior
the result is the synchronous throw, so no engine activity, network call
or duplex activity takes place. -/
theorem c8_stream_json_throws (resolveUrl : String → String → String)
    (parseProtocol : String → String) (opts : Opts) (outcomes : List Outcome)
    (hjson : opts.json = true) :
    asStream resolveUrl parseProtocol opts outcomes = .thrownJson := by
  unfold asStream
  rw [hjson, if_pos rfl]

/-- C8 witness: a JSON-mode descriptor throws at stream construction. -/
theorem c8_stream_json_throws_witness :
    asStream (fun _ l => l) (fun _ => "http:")
      { protocol := "http:", method := "GET", followRedirect := true,
        retries := fun _ _ => 0, json := true, url := "http://a/" }
      [.response 200 none] = .thrownJson :=
  c8_stream_json_throws (fun _ l => l) (fun _ => "http:")
    { protocol := "http:", method := "GET", followRedirect := true,
      retries := fun _ _ => 0, json := true, url := "http://a/" }
    [.response 200 none] rfl

/-- The attempt index an event was emitted for. -/
def attemptOf : Event → Nat
  | .request a => a
  | .redirect a _ _ => a
  | .response a _ _ _ => a
  | .error a _ => a

/-- Events that belong to a physical attempt (one with an actual transport
call) and must therefore be preceded by that attempt's `request` event.
`request` events themselves are excluded, as is the
`UnsupportedProtocolError` error, which the engine emits without making a
transport call (src/index.js lines 32-35) -- that attempt is not physical
and has no `request` event. -/
def needsRequest : Event → Bool
  | .request _ => false
  | .error _ (.UnsupportedProtocolError _) => false
  | _ => true

/-- A list with no earlier events trivially satisfies the ordering. -/
theorem requestFirst_nil :
    ∀ (pre : List Event) (e : Event) (post : List Event),
      ([] : List Event) = pre ++ e :: post → needsRequest e = true →
      Event.request (attemptOf e) ∈ pre := by
  intro pre e post heq hne
  exfalso
  cases pre <;> simp at heq

/-- Prefixing an event that needs no `request` preserves the ordering. -/
theorem requestFirst_cons (x : Event) (evs : List Event)
    (hx : needsRequest x = false)
    (h : ∀ pre e post, evs = pre ++ e :: post → needsRequest e = true →
      Event.request (attemptOf e) ∈ pre) :
    ∀ pre e post, x :: evs = pre ++ e :: post → needsRequest e = true →
      Event.request (attemptOf e) ∈ pre := by
  intro pre e post heq hne
  cases pre with
  | nil =>
    simp only [List.nil_append] at heq
    injection heq with h1 h2
    subst h1
    rw [hx] at hne
    cases hne
  | cons p pre2 =>
    simp only [List.cons_append] at heq
    injection heq with h1 h2
    exact List.mem_cons_of_mem _ (h pre2 e post h2 hne)

/-- Prefixing `request b` and then an event of attempt `b` preserves the
ordering. -/
theorem requestFirst_cons2 (b : Nat) (x : Event) (evs : List Event)
    (hx : attemptOf x = b)
    (h : ∀ pre e post, evs = pre ++ e :: post → needsRequest e = true →
      Event.request (attemptOf e) ∈ pre) :
    ∀ pre e post, Event.request b :: x :: evs = pre ++ e :: post →
      needsRequest e = true → Event.request (attemptOf e) ∈ pre := by
  intro pre e post heq hne
  cases pre with
  | nil =>
    simp only [List.nil_append] at heq
    injection heq with h1 h2
    subst h1
    simp [needsRequest] at hne
  | cons p pre2 =>
    simp only [List.cons_append] at heq
    injection heq with h1 h2
    subst h1
    cases pre2 with
    | nil =>
      simp only [List.nil_append] at h2
      injection h2 with h3 h4
      subst h3
      rw [hx]
      exact List.mem_cons_self _ _
    | cons p2 pre3 =>
      simp only [List.cons_append] at h2
      injection h2 with h3 h4
      subst h3
      exact List.mem_cons_of_mem _
        (List.mem_cons_of_mem _ (h pre3 e post h4 hne))

/-- Every engine trace observes the per-attempt ordering: any event of a
physical attempt is preceded by that attempt's `request` event. -/
theorem runGet_request_first (resolveUrl : String → String → String)
    (parseProtocol : String → String) (requestUrl : String) :
    ∀ (outcomes : List Outcome) (opts : Opts) (st : EngineState) (a : Nat)
      (pre : List Event) (e : Event) (post : List Event),
      (runGet resolveUrl parseProtocol requestUrl opts st a outcomes).events =
        pre ++ e :: post →
      needsRequest e = true →
      Event.request (attemptOf e) ∈ pre := by
  intro outcomes
  induction outcomes with
  | nil =>
    intro opts st a
    by_cases hp : supportedProtocol opts.protocol
    · rw [runGet_nil resolveUrl parseProtocol requestUrl opts st a hp]
      exact requestFirst_cons (.request a) [] rfl requestFirst_nil
    · rw [runGet_unsupported resolveUrl parseProtocol requestUrl opts st a [] hp]
      exact requestFirst_cons (.error a (.UnsupportedProtocolError opts.protocol)) [] rfl
        requestFirst_nil
  | cons o rest ih =>
    intro opts st a
    by_cases hp : supportedProtocol opts.protocol
    · cases o with
      | transportError err =>
        by_cases hb : opts.retries (st.retryCount + 1) err ≠ 0
        · rw [runGet_transport_retry resolveUrl parseProtocol requestUrl opts st a err rest hp hb]
          rw [RunResult.events_prepend]
          exact requestFirst_cons (.request a) _ rfl
            (ih opts { st with retryCount := st.retryCount + 1 } (a + 1))
        · rw [runGet_transport_stop resolveUrl parseProtocol requestUrl opts st a err rest hp
            (by push_neg at hb; exact hb)]
          exact requestFirst_cons2 a (.error a (.RequestError err)) [] rfl requestFirst_nil
      | response code loc =>
        cases loc with
        | none =>
          rw [runGet_response_none resolveUrl parseProtocol requestUrl opts st a code rest hp]
          exact requestFirst_cons2 a
            (.response a code (st.redirectUrl.getD requestUrl) requestUrl) [] rfl
            requestFirst_nil
        | some l =>
          by_cases hc : followsRedirect opts code = true
          · by_cases hn : st.redirectCount + 1 ≤ 10
            · rw [runGet_redirect resolveUrl parseProtocol requestUrl opts st a code l rest hp hc hn]
              rw [RunResult.events_prepend]
              exact requestFirst_cons2 a (.redirect a code (resolveUrl opts.url l)) _ rfl
                (ih _ _ (a + 1))
            · rw [runGet_redirect_max resolveUrl parseProtocol requestUrl opts st a code l rest hp hc
                (by omega)]
              exact requestFirst_cons2 a (.error a (.MaxRedirectsError code)) [] rfl
                requestFirst_nil
          · rw [runGet_response_some resolveUrl parseProtocol requestUrl opts st a code l rest hp
              (by revert hc; cases followsRedirect opts code <;> simp)]
            exact requestFirst_cons2 a
              (.response a code (st.redirectUrl.getD requestUrl) requestUrl) [] rfl
              requestFirst_nil
    · rw [runGet_unsupported resolveUrl parseProtocol requestUrl opts st a (o :: rest) hp]
      exact requestFirst_cons (.error a (.UnsupportedProtocolError opts.protocol)) [] rfl
        requestFirst_nil

/-- C9: For every physical attempt, the `request` event is observed in the
trace before any `response`, `redirect`, or terminal `error` event of that
same attempt (the source defers the `response` emission by one tick so the
consumer's `request` handler runs first; in the trace model this appears
as the `request` event of an attempt strictly preceding every later event
of that attempt). -/
theorem c9_request_before_events (resolveUrl : String → String → String)
    (parseProtocol : String → String) (opts : Opts) (outcomes : List Outcome)
    (pre : List Event) (e : Event) (post : List Event)
    (heq : (requestAsEventEmitter resolveUrl parseProtocol opts outcomes).events =
      pre ++ e :: post)
    (hne : needsRequest e = true) :
    Event.request (attemptOf e) ∈ pre :=
  runGet_request_first resolveUrl parseProtocol opts.url outcomes opts ⟨0, 0, none⟩ 0
    pre e post heq hne

/-- C9 witness: in a single-attempt run the `response` event of attempt 0
is preceded by `request 0`. -/
theorem c9_request_before_events_witness :
    Event.request (attemptOf (Event.response 0 200 "http://a/" "http://a/")) ∈
      [Event.request 0] :=
  c9_request_before_events (fun _ l => l) (fun _ => "http:")
    { protocol := "http:", method := "GET", followRedirect := true,
      retries := fun _ _ => 0, json := false, url := "http://a/" }
    [Outcome.response 200 none]
    [Event.request 0] (Event.response 0 200 "http://a/" "http://a/") []
    (by rw [requestAsEventEmitter,
          runGet_response_none _ _ _ _ _ _ _ _ (Or.inl rfl)]
        rfl)
    rfl

/-- C10: `got(url, opts)` always returns a promise (the try/catch around
normalization makes the model total) and every argument-normalization
failure surfaces as a rejection of that promise carrying the error: in
particular a `url` that is neither string nor object, basic auth embedded
in a string url, and a body of an invalid type each reject with the
corresponding error. -/
theorem c10_got_never_throws (random : Nat → ℚ) (url : UrlInput) (o : OptsIn) :
    (∀ e, normalizeArguments random url o = .error e →
      got random url o = .rejectedPromise e) ∧
    (∀ t, url = .other t → got random url o = .rejectedPromise (.urlType t)) ∧
    (∀ u, url = .str u → u.auth = true → got random url o = .rejectedPromise .basicAuth) ∧
    (∀ u b, (url = .obj u ∨ (url = .str u ∧ u.auth = false)) → o.body = some b →
      b.isStreamB = false → b.isStringB = false → b.isBufferB = false →
      o.form = false → o.json = false →
      got random url o = .rejectedPromise .bodyType) := by
  refine ⟨?_, ?_, ?_, ?_⟩
  · intro e h
    unfold got
    rw [h]
  · intro t ht
    subst ht
    rfl
  · intro u hu hauth
    subst hu
    unfold got normalizeArguments
    simp [hauth]
  · intro u b hurl hbody hs1 hs2 hs3 hf hj
    have hnorm : normalizeArguments random url o = .error .bodyType := by
      rcases hurl with h | ⟨h, hauth⟩ <;> subst h
      · unfold normalizeArguments normalizeOpts
        simp [hbody, hs1, hs2, hs3, hf, hj]
      · unfold normalizeArguments normalizeOpts
        simp [hauth, hbody, hs1, hs2, hs3, hf, hj]
    unfold got
    rw [hnorm]

/-- C10 witness: a numeric `url` rejects with the url-type error. -/
theorem c10_got_never_throws_witness :
    got (fun _ => 0) (.other "number") {} = .rejectedPromise (.urlType "number") :=
  (c10_got_never_throws (fun _ => 0) (.other "number") {}).2.1 "number" rfl

end Got
